import Mathlib

/-!
# fdrop: a source-address block list shared between an XDP classifier and its tools

Shallow embedding of `src/fdrop/fdrop_kern.c` (the per-packet classifier
`fdrop_simple`), `src/fdrop/fdrop_ops.c` (the administrative tool) and
`src/fdrop/fdrop_loader.c` (the loader), together with a sequential model of the
kernel hash map they share.

Machine integers are `Nat`/`Int` with explicit reductions: keys are `__u32`,
counters are `__u64` (arithmetic modulo `2 ^ 64`), C `int` results are `Int`.
-/

namespace Fdrop

/-! ## Constants -/

/-- Capacity of the block list: `#define FDROP_MAX_ENTRY 4096`. -/
def FDROP_MAX_ENTRY : Nat := 4096

/-- Verdict `XDP_ABORTED` of `enum xdp_action` (linux/bpf.h). -/
def XDP_ABORTED : Nat := 0
/-- Verdict `XDP_DROP` of `enum xdp_action`. -/
def XDP_DROP : Nat := 1
/-- Verdict `XDP_PASS` of `enum xdp_action`. -/
def XDP_PASS : Nat := 2

/-- EtherType of IPv4 (linux/if_ether.h). -/
def ETH_P_IP : Nat := 0x0800

/-- Update flag: create the row or replace it. -/
def BPF_ANY : Nat := 0
/-- Update flag: create the row only when the key is absent. -/
def BPF_NOEXIST : Nat := 1
/-- Update flag: replace the row only when the key is present. -/
def BPF_EXIST : Nat := 2

/-- Error number "no such entry". -/
def ENOENT : Nat := 2
/-- Error number "bad file descriptor". -/
def EBADF : Nat := 9
/-- Error number "argument list too long", used by the map for "table full". -/
def E2BIG : Nat := 7
/-- Error number "entry exists". -/
def EEXIST : Nat := 17
/-- Error number "invalid argument". -/
def EINVAL : Nat := 22

/-- Map kind tag `BPF_MAP_TYPE_HASH` of `enum bpf_map_type`. -/
def BPF_MAP_TYPE_HASH : Nat := 1
/-- Map kind tag `BPF_MAP_TYPE_LRU_HASH` of `enum bpf_map_type`. -/
def BPF_MAP_TYPE_LRU_HASH : Nat := 9

/-! ## The shared table (kernel hash map)

The kernel map is not part of the repository.  It is modelled sequentially as the
list of its rows in iteration order, with the documented behaviour of the map
operations (the `SharedStateTable` contract): lookup, flagged update bounded by
the capacity, delete, and next-key iteration. -/

/-- Rows of the table, `(key, counter)`, in iteration order. -/
abbrev htab := List (Nat × Nat)

/-- Signature of a map as reported by the kernel (`struct bpf_map_info`,
restricted to the components the tools read). -/
structure bpf_map_info where
  type : Nat
  key_size : Nat
  value_size : Nat
  max_entries : Nat
deriving DecidableEq, Repr

/-- A kernel map object: its signature and its rows. -/
structure bpf_map where
  info : bpf_map_info
  rows : htab
deriving DecidableEq, Repr

/-- Counter stored under `key`, if the key has a row. -/
def htab_lookup : htab → Nat → Option Nat
  | [], _ => none
  | (k, v) :: rest, key => if k = key then some v else htab_lookup rest key

/-- Unlink the row of `key`. -/
def htab_erase : htab → Nat → htab
  | [], _ => []
  | (k, v) :: rest, key =>
    if k = key then htab_erase rest key else (k, v) :: htab_erase rest key

/-- Store through a pointer previously returned by a lookup of `key`: the counter
of the row is overwritten in place.  When the row has been unlinked in the
meantime the pointer refers to memory that is no longer part of the table, and the
table is not affected. -/
def htab_store : htab → Nat → Nat → htab
  | [], _, _ => []
  | (k, v) :: rest, key, val =>
    if k = key then (k, val) :: rest else (k, v) :: htab_store rest key val

/-- Kernel side of `bpf_map_update_elem`: returns `0` or a negative error number,
and the map afterwards.  A replacement row is linked at the head and the old row is
unlinked; a new row is refused when the map already holds `max_entries` rows. -/
def htab_map_update_elem (m : bpf_map) (key value flags : Nat) : Int × bpf_map :=
  if flags > BPF_EXIST then (-(EINVAL : Int), m)
  else
    match htab_lookup m.rows key with
    | some _ =>
      if flags = BPF_NOEXIST then (-(EEXIST : Int), m)
      else (0, { m with rows := (key, value) :: htab_erase m.rows key })
    | none =>
      if flags = BPF_EXIST then (-(ENOENT : Int), m)
      else if m.rows.length ≥ m.info.max_entries then (-(E2BIG : Int), m)
      else (0, { m with rows := (key, value) :: m.rows })

/-- Kernel side of `bpf_map_delete_elem`: `0` when the row existed and was
unlinked, `-ENOENT` otherwise. -/
def htab_map_delete_elem (m : bpf_map) (key : Nat) : Int × bpf_map :=
  match htab_lookup m.rows key with
  | some _ => (0, { m with rows := htab_erase m.rows key })
  | none => (-(ENOENT : Int), m)

/-- Key following the first row of `key` in iteration order. -/
def htab_after : htab → Nat → Option Nat
  | [], _ => none
  | (k, _) :: rest, key =>
    if k = key then rest.head?.map Prod.fst else htab_after rest key

/-- Kernel side of `bpf_map_get_next_key` with a cursor: when the cursor is not a
key of the map the first key is produced, otherwise the key following the cursor;
`-ENOENT` when there is no such key. -/
def htab_map_get_next_key (m : bpf_map) (key : Nat) : Int × Option Nat :=
  match htab_lookup m.rows key with
  | none =>
    match m.rows.head? with
    | some (k, _) => (0, some k)
    | none => (-(ENOENT : Int), none)
  | some _ =>
    match htab_after m.rows key with
    | some k => (0, some k)
    | none => (-(ENOENT : Int), none)

/-! ## The classifier (`fdrop_kern.c`) -/

/-- Parse position inside the packet (`struct hdr_cursor`). -/
structure hdr_cursor where
  pos : Nat
deriving DecidableEq, Repr

/-- The IPv4 header as far as the classifier reads it. -/
structure iphdr where
  saddr : Nat
deriving DecidableEq, Repr

/-- What the classifier takes from outside `fdrop_kern.c`: the byte order of the
target and the two header parsers of `common/parsing_helpers.h`, which are not
among the sources.  Each parser receives the cursor, the end of the packet and the
packet bytes, and returns the advanced cursor and its `int` result (the
next-protocol type, negative on failure); `parse_iphdr` also returns the header it
located. -/
structure kern_env where
  big_endian : Bool
  parse_ethhdr : hdr_cursor → Nat → List Nat → hdr_cursor × Int
  parse_iphdr : hdr_cursor → Nat → List Nat → hdr_cursor × Int × iphdr

/-- Conversion of a 16-bit value from host to network byte order. -/
def bpf_htons (big_endian : Bool) (x : Nat) : Nat :=
  if big_endian then x % 65536 else (x % 256) * 256 + (x / 256) % 256

/-- Administrative deletions that run on another core while `fdrop_simple`
handles a packet whose source address has a row: one point lies between the lookup
and the store through the returned pointer, the other between that store and the
update. -/
structure schedule where
  del_before_store : Option Nat
  del_after_store : Option Nat
deriving DecidableEq, Repr

/-- The schedule without any concurrent deletion. -/
def schedule.quiet : schedule := ⟨none, none⟩

/-- Effect of a concurrent deletion on the rows. -/
def concurrent_del (rows : htab) : Option Nat → htab
  | none => rows
  | some k => htab_erase rows k

/-- The classifier `fdrop_simple`: verdict and map afterwards for one packet. -/
def fdrop_simple (E : kern_env) (s : schedule) (fdrop_map_v1 : bpf_map)
    (ctx : List Nat) : Nat × bpf_map :=
  let data_end := ctx.length
  let action := XDP_PASS
  let nh : hdr_cursor := ⟨0⟩
  let (nh, eth_type) := E.parse_ethhdr nh data_end ctx
  if eth_type = (bpf_htons E.big_endian ETH_P_IP : Int) then
    let (_, ip_type, iphdr) := E.parse_iphdr nh data_end ctx
    if ip_type < 0 then (XDP_PASS, fdrop_map_v1)
    else
      match htab_lookup fdrop_map_v1.rows iphdr.saddr with
      | some v =>
        let action := XDP_DROP
        let rows1 := concurrent_del fdrop_map_v1.rows s.del_before_store
        let value := (v + 1) % 2 ^ 64
        let rows2 := htab_store rows1 iphdr.saddr value
        let rows3 := concurrent_del rows2 s.del_after_store
        let (rtn, m) :=
          htab_map_update_elem { fdrop_map_v1 with rows := rows3 } iphdr.saddr value BPF_EXIST
        if rtn < 0 then (XDP_ABORTED, m) else (action, m)
      | none => (action, fdrop_map_v1)
  else (action, fdrop_map_v1)

/-- Link-layer result of the classifier for a packet. -/
def eth_type_of (E : kern_env) (ctx : List Nat) : Int :=
  (E.parse_ethhdr ⟨0⟩ ctx.length ctx).2

/-- Network-layer result of the classifier for a packet. -/
def ip_type_of (E : kern_env) (ctx : List Nat) : Int :=
  (E.parse_iphdr (E.parse_ethhdr ⟨0⟩ ctx.length ctx).1 ctx.length ctx).2.1

/-- Source address that the classifier reads from the located IPv4 header. -/
def saddr_of (E : kern_env) (ctx : List Nat) : Nat :=
  (E.parse_iphdr (E.parse_ethhdr ⟨0⟩ ctx.length ctx).1 ctx.length ctx).2.2.saddr

/-- Rows that the update of the classifier finds: the rows at lookup time after
the concurrent deletions and the store through the looked-up pointer. -/
def rows_at_update (s : schedule) (rows : htab) (key value : Nat) : htab :=
  concurrent_del (htab_store (concurrent_del rows s.del_before_store) key value)
    s.del_after_store

/-! ## The administrative tool (`fdrop_ops.c`) -/

/-- Properties of the host the tools run on: its byte order, and whether the
map-access library reports a failure as the negated error number (`true`) or as
`-1` (`false`); in both cases `errno` carries the error number. -/
structure host where
  big_endian : Bool
  direct_errs : Bool
deriving DecidableEq, Repr

/-- Conversion of a 32-bit value from network to host byte order. -/
def ntohl (big_endian : Bool) (x : Nat) : Nat :=
  if big_endian then x % 2 ^ 32
  else (x % 256) * 2 ^ 24 + (x / 2 ^ 8 % 256) * 2 ^ 16 + (x / 2 ^ 16 % 256) * 2 ^ 8
    + (x / 2 ^ 24 % 256)

/-- Conversion of an unsigned value to a 32-bit C `int`. -/
def to_int (v : Nat) : Int :=
  if v % 2 ^ 32 < 2 ^ 31 then ((v % 2 ^ 32 : Nat) : Int) else ((v % 2 ^ 32 : Nat) : Int) - 2 ^ 32

/-- The four numbers that `u32_to_ip_str` prints separated by dots. -/
def u32_to_ip_str (H : host) (sip : Nat) : List Nat :=
  let ip : Int := to_int (ntohl H.big_endian sip)
  [((ip >>> 24) % 256).toNat, ((ip >>> 16) % 256).toNat, ((ip >>> 8) % 256).toNat,
    (ip % 256).toNat]

/-- Lines written by the tool, one constructor per format string; the arguments
are the values substituted into the format. -/
inductive out_line where
  | err_dev_missing
  | open_success
  | err_not_compatible
  | map_details (info : bpf_map_info)
  | add_new (ip_str : List Nat)
  | add_failed (ip_str : List Nat)
  | add_success (ip_str : List Nat)
  | del_absent (ip_str : List Nat)
  | del_failed (ip_str : List Nat) (errno : Nat)
  | del_success (ip_str : List Nat)
  | get_failed (ip_str : List Nat)
  | get_counter (ip_str : List Nat) (value : Nat)
  | dump_row (ip_str : List Nat) (value : Nat)
  | unknown_operation (ops : Int)
deriving DecidableEq, Repr

/-- State seen by the operations of the tool: the map behind `fdrop_map_fd`, the
`errno` of the process and the lines written so far. -/
structure ustate where
  map : bpf_map
  errno : Nat
  out : List out_line
deriving DecidableEq, Repr

/-- Append one line to the output. -/
def ustate.printf (st : ustate) (l : out_line) : ustate :=
  { st with out := st.out ++ [l] }

/-- Result of a failed map system call as the library hands it to the caller. -/
def libbpf_err_errno (direct_errs : Bool) (ret : Int) (errno : Nat) : Int :=
  if direct_errs then (if ret < 0 then -(errno : Int) else ret) else ret

/-- User-space `bpf_map_lookup_elem(fd, &key, &value)`: result, contents of the
value buffer afterwards, state afterwards. -/
def bpf_map_lookup_elem (H : host) (st : ustate) (key value : Nat) : Int × Nat × ustate :=
  match htab_lookup st.map.rows key with
  | some v => (0, v, st)
  | none => (libbpf_err_errno H.direct_errs (-1) ENOENT, value, { st with errno := ENOENT })

/-- User-space `bpf_map_update_elem(fd, &key, &value, flags)`. -/
def bpf_map_update_elem (H : host) (st : ustate) (key value flags : Nat) : Int × ustate :=
  let (k, m) := htab_map_update_elem st.map key value flags
  if k < 0 then
    (libbpf_err_errno H.direct_errs (-1) (-k).toNat, { st with map := m, errno := (-k).toNat })
  else (k, { st with map := m })

/-- User-space `bpf_map_delete_elem(fd, &key)`. -/
def bpf_map_delete_elem (H : host) (st : ustate) (key : Nat) : Int × ustate :=
  let (k, m) := htab_map_delete_elem st.map key
  if k < 0 then
    (libbpf_err_errno H.direct_errs (-1) (-k).toNat, { st with map := m, errno := (-k).toNat })
  else (k, { st with map := m })

/-- User-space `bpf_map_get_next_key(fd, &key, &next_key)`: result, contents of
the `next_key` buffer afterwards, state afterwards. -/
def bpf_map_get_next_key (H : host) (st : ustate) (key next_key : Nat) : Int × Nat × ustate :=
  match htab_map_get_next_key st.map key with
  | (_, some k) => (0, k, st)
  | (e, none) =>
    (libbpf_err_errno H.direct_errs (-1) (-e).toNat, next_key, { st with errno := (-e).toNat })

/-- The operation `fdrop_map_add`. -/
def fdrop_map_add (H : host) (st : ustate) (addr : Nat) : Int × ustate :=
  let value := 0
  let ip_str := u32_to_ip_str H addr
  let (rtn, value, st) := bpf_map_lookup_elem H st addr value
  let st := if rtn ≠ 0 then st.printf (.add_new ip_str) else st
  let (rtn, st) := bpf_map_update_elem H st addr value BPF_ANY
  if rtn ≠ 0 then (rtn, st.printf (.add_failed ip_str))
  else (rtn, st.printf (.add_success ip_str))

/-- The operation `fdrop_map_del`. -/
def fdrop_map_del (H : host) (st : ustate) (addr : Nat) : Int × ustate :=
  let ip_str := u32_to_ip_str H addr
  let (rtn, st) := bpf_map_delete_elem H st addr
  if rtn ≠ 0 then
    if st.errno = ENOENT then (0, st.printf (.del_absent ip_str))
    else (rtn, st.printf (.del_failed ip_str st.errno))
  else (rtn, st.printf (.del_success ip_str))

/-- The operation `fdrop_map_get`; its result is a C `int`. -/
def fdrop_map_get (H : host) (st : ustate) (addr : Nat) : Int × ustate :=
  let value := 0
  let ip_str := u32_to_ip_str H addr
  let (rtn, value, st) := bpf_map_lookup_elem H st addr value
  if rtn ≠ 0 then (rtn, st.printf (.get_failed ip_str))
  else (to_int value, st.printf (.get_counter ip_str value))

/-- The `while` loop of `fdrop_map_dump`, with the local variables `value`, `key`
and `next_key` as arguments; `none` when `fuel` iterations did not reach the end
of the loop. -/
def fdrop_map_dump_loop (H : host) : Nat → ustate → Nat → Nat → Nat → Option ustate
  | 0, _, _, _, _ => none
  | fuel + 1, st, value, key, next_key =>
    let (r, next_key, st) := bpf_map_get_next_key H st key next_key
    if r = 0 then
      let (_, value, st) := bpf_map_lookup_elem H st next_key value
      let key := next_key
      let ip_str := u32_to_ip_str H key
      fdrop_map_dump_loop H fuel (st.printf (.dump_row ip_str value)) value key next_key
    else some st

/-- The operation `fdrop_map_dump`.  The local `next_key` is not initialised in
the source and is written before it is first read; it starts as `0` here. -/
def fdrop_map_dump (H : host) (fuel : Nat) (st : ustate) : Option (Int × ustate) :=
  (fdrop_map_dump_loop H fuel st 0 0 0).map (fun st => (0, st))

/-- The line that `fdrop_map_dump` writes for a row. -/
def dump_line (H : host) (p : Nat × Nat) : out_line :=
  out_line.dump_row (u32_to_ip_str H p.1) p.2

/-! ## Shared declarations of the tools -/

/-- Modelled from the spec: exit code for success.  The exit codes are declared in
`common/common_defines.h`, which is not among the sources; the spec fixes that
success is zero and that configuration errors and resource errors are two
distinct non-zero classes. -/
def EXIT_OK : Int := 0
/-- Modelled from the spec: exit code of a helper that rejects its input. -/
def EXIT_FAIL : Int := 1
/-- Modelled from the spec: exit code for a configuration error. -/
def EXIT_FAIL_OPTION : Int := 2
/-- Modelled from the spec: exit code for a resource or attach error. -/
def EXIT_FAIL_BPF : Int := 40

/-- Operation selector `ENUM_OPS_ADD` of `enum ops_type`. -/
def ENUM_OPS_ADD : Int := 1
/-- Operation selector `ENUM_OPS_DEL`. -/
def ENUM_OPS_DEL : Int := 2
/-- Operation selector `ENUM_OPS_GET`. -/
def ENUM_OPS_GET : Int := 3
/-- Operation selector `ENUM_OPS_DUMP`. -/
def ENUM_OPS_DUMP : Int := 4

/-- The fields of `struct config` that the two `main` functions read after
`parse_cmdline_args` has filled them in. -/
structure config where
  ifindex : Int
  do_unload : Bool
  attach_mode : Nat
  ops : Int
  saddr : Nat
deriving DecidableEq, Repr

namespace fdrop_ops

/-- What the administrative tool sees of the system: the map registered under
`/sys/fs/bpf/fdrop/fdrop_map_v1` (if any), the `errno` of the process and the
lines written so far. -/
structure world where
  pin : Option bpf_map
  errno : Nat
  out : List out_line
deriving DecidableEq, Repr

/-- Modelled from the spec: the schema signature of the block list, (key size,
value size, capacity, store kind) = (4, 8, 4096, hash); it is the signature that
`fdrop_kern.c` declares for `fdrop_map_v1`. -/
def expected_signature : bpf_map_info :=
  { type := BPF_MAP_TYPE_HASH, key_size := 4, value_size := 8, max_entries := FDROP_MAX_ENTRY }

/-- Modelled from the spec: `open_bpf_map_file` of `common/common_user_bpf_xdp.c`,
which is not among the sources.  It is the `open(name)` of the spec: it binds to
the table registered under the name and validates its signature, all four
components being compared verbatim on every open.  A descriptor is represented by
the map it refers to; `none` stands for a negative descriptor, returned when
nothing is registered (`NotFound`) or when a component of the signature differs
(`SchemaMismatch`).  On success the signature of the map is written to `info`. -/
def open_bpf_map_file (pin : Option bpf_map) (info : bpf_map_info) :
    Option bpf_map × bpf_map_info :=
  match pin with
  | some m => if m.info = expected_signature then (some m, m.info) else (none, info)
  | none => (none, info)

/-- The expected signature that `main` builds: `map_expect` starts zeroed and
receives `key_size`, `value_size` and `max_entries`. -/
def map_expect : bpf_map_info :=
  { type := 0, key_size := 4, value_size := 8, max_entries := FDROP_MAX_ENTRY }

/-- The `switch (cfg.ops)` of `main`; `none` when the dump loop ran out of fuel. -/
def dispatch (H : host) (fuel : Nat) (cfg : config) (st : ustate) : Option ustate :=
  if cfg.ops = ENUM_OPS_ADD then some (fdrop_map_add H st cfg.saddr).2
  else if cfg.ops = ENUM_OPS_DEL then some (fdrop_map_del H st cfg.saddr).2
  else if cfg.ops = ENUM_OPS_GET then some (fdrop_map_get H st cfg.saddr).2
  else if cfg.ops = ENUM_OPS_DUMP then (fdrop_map_dump H fuel st).map Prod.snd
  else some (st.printf (.unknown_operation cfg.ops))

/-- The function `main` of `fdrop_ops.c` after `parse_cmdline_args`: exit code and
system afterwards; `none` when the dump loop ran out of fuel.  The helper
`check_map_fd_info` of `common/common_user_bpf_xdp.c` is not among the sources and
is a parameter: it receives the signature read from the map and `map_expect` and
returns zero to accept. -/
def main (H : host) (verbose : Bool) (fuel : Nat)
    (check_map_fd_info : bpf_map_info → bpf_map_info → Int) (cfg : config) (w : world) :
    Option (Int × world) :=
  let info : bpf_map_info := ⟨0, 0, 0, 0⟩
  if cfg.ifindex = -1 then
    some (EXIT_FAIL_OPTION, { w with out := w.out ++ [.err_dev_missing] })
  else
    let (fdrop_map_fd, info) := open_bpf_map_file w.pin info
    match fdrop_map_fd with
    | none => some (EXIT_FAIL_BPF, w)
    | some m =>
      let out := w.out ++ [.open_success]
      let err := check_map_fd_info info map_expect
      if err ≠ 0 then some (err, { w with out := out ++ [.err_not_compatible] })
      else
        let out := if verbose then out ++ [.map_details info] else out
        (dispatch H fuel cfg ⟨m, w.errno, out⟩).map
          (fun st => (EXIT_OK, { pin := some st.map, errno := st.errno, out := st.out }))

end fdrop_ops

/-! ## The loader (`fdrop_loader.c`)

The loader only calls into the object-loading libraries.  Their effect on the
system is modelled on the live maps, the registration under the well-known name
and the classifiers attached to interfaces.  Every library call whose result is an
error code or a descriptor can fail; whether it does is fixed by a `loader_env`.
Diagnostic output of the loader is not modelled. -/

namespace fdrop_loader

/-- The system as the loader affects it: live kernel maps by id, the id
registered under `/sys/fs/bpf/fdrop/fdrop_map_v1` (if any), and for every attached
classifier the interface and the id of the map it is bound to. -/
structure world where
  maps : List (Nat × bpf_map)
  pin : Option Nat
  attached : List (Int × Nat)
deriving DecidableEq, Repr

/-- Outcomes of the library calls: the error reported after
`xdp_program__create`, whether `xdp_program__bpf_obj` yields an object, whether
`bpf_obj_get` yields a descriptor for a registered map, the results of
`bpf_map__reuse_fd` on a valid descriptor, of `xdp_program__attach`, of
`xdp_program__fd` and of `bpf_object__pin_maps`, and the id that the kernel gives
to a map created while the object is loaded. -/
structure loader_env where
  create_err : Int
  obj_ok : Bool
  obj_get_ok : Bool
  reuse_err : Int
  attach_err : Int
  prog_fd : Int
  pin_err : Int
  new_map_id : Nat
deriving DecidableEq, Repr

/-- An opened program object: the id of the kernel map that its `fdrop_map_v1`
refers to, `none` as long as the map is still to be created when the object is
loaded. -/
structure xdp_program where
  map : Option Nat
deriving DecidableEq, Repr

/-- The map that loading the object creates for `fdrop_map_v1` as declared in
`fdrop_kern.c`. -/
def fresh_map : bpf_map :=
  ⟨⟨BPF_MAP_TYPE_HASH, 4, 8, FDROP_MAX_ENTRY⟩, []⟩

/-- Library call `bpf_obj_get(map_filename)`: a descriptor for the registered map,
represented by its id; `none` stands for a negative descriptor, which is the
result when nothing is registered or when the call fails. -/
def bpf_obj_get (env : loader_env) (w : world) : Option Nat :=
  if env.obj_get_ok then w.pin else none

/-- Library call `bpf_map__reuse_fd(map, fd)`: its `int` result and the object
afterwards.  On success the object will use the map behind `fd` instead of
creating one; with a negative descriptor, or when the call fails, the object is
unchanged. -/
def bpf_map__reuse_fd (env : loader_env) (prog : xdp_program) (fd : Option Nat) :
    Int × xdp_program :=
  match fd with
  | some id =>
    if env.reuse_err ≠ 0 then (env.reuse_err, prog) else (0, { prog with map := some id })
  | none => (-(EBADF : Int), prog)

/-- Library call `xdp_program__attach(prog, ifindex, attach_mode, 0)`: on success
the object is loaded (creating its map unless one is reused) and the classifier is
attached to the interface. -/
def xdp_program__attach (env : loader_env) (prog : xdp_program) (ifindex : Int) (w : world) :
    Int × xdp_program × world :=
  if env.attach_err ≠ 0 then (env.attach_err, prog, w)
  else
    match prog.map with
    | some id => (0, prog, { w with attached := (ifindex, id) :: w.attached })
    | none =>
      (0, { prog with map := some env.new_map_id },
        { w with maps := (env.new_map_id, fresh_map) :: w.maps,
                 attached := (ifindex, env.new_map_id) :: w.attached })

/-- Modelled from the spec: `load_bpf_and_xdp_attach` of
`common/common_user_bpf_xdp.c`, which is not among the sources.  It opens the
object and attaches the classifier with a freshly allocated table; a failure ends
the process (`Except.error` carries the exit code and the system at that point). -/
def load_bpf_and_xdp_attach (env : loader_env) (cfg : config) (w : world) :
    Except (Int × world) (xdp_program × world) :=
  if env.create_err ≠ 0 then .error (EXIT_FAIL_BPF, w)
  else
    let (err, prog, w) := xdp_program__attach env ⟨none⟩ cfg.ifindex w
    if err ≠ 0 then .error (err, w) else .ok (prog, w)

/-- Library call `bpf_object__pin_maps(obj, pin_basedir)`: registers the map of the
object under the well-known name. -/
def bpf_object__pin_maps (env : loader_env) (prog : xdp_program) (w : world) : Int × world :=
  if env.pin_err ≠ 0 then (env.pin_err, w) else (0, { w with pin := prog.map })

/-- The function `load_bpf_and_pin_maps` of `fdrop_loader.c`.  `Except.error` is a
call of `exit` with its code and the system at that point; the result is the
program pointer (`none` for a null pointer) and the system afterwards.  The
source does not test `pinned_map_fd` and drops the result of
`bpf_map__reuse_fd`. -/
def load_bpf_and_pin_maps (env : loader_env) (cfg : config) (w : world) :
    Except (Int × world) (Option xdp_program × world) :=
  let prog : xdp_program := ⟨none⟩
  if env.create_err ≠ 0 then .error (EXIT_FAIL_BPF, w)
  else if !env.obj_ok then .error (EXIT_FAIL_BPF, w)
  else
    let pinned_map_fd := bpf_obj_get env w
    let (_, prog) := bpf_map__reuse_fd env prog pinned_map_fd
    let (err, prog, w) := xdp_program__attach env prog cfg.ifindex w
    if err ≠ 0 then .error (err, w)
    else if env.prog_fd < 0 then .error (EXIT_FAIL_BPF, w)
    else .ok (some prog, w)

/-- The function `main` of `fdrop_loader.c` after `parse_cmdline_args`: the code
the process ends with and the system afterwards.  `access(map_filename, F_OK)`
succeeds exactly when a map is registered under the name. -/
def main (env : loader_env) (cfg : config) (w : world) : Int × world :=
  if cfg.ifindex = -1 then (EXIT_FAIL_OPTION, w)
  else
    -- `if (cfg.do_unload)` has an empty body in the source
    match w.pin with
    | none =>
      match load_bpf_and_xdp_attach env cfg w with
      | .error e => e
      | .ok (program, w) =>
        let (err, w) := bpf_object__pin_maps env program w
        if err ≠ 0 then (EXIT_FAIL_BPF, w) else (EXIT_OK, w)
    | some _ =>
      match load_bpf_and_pin_maps env cfg w with
      | .error e => e
      | .ok (none, w) => (EXIT_FAIL_BPF, w)
      | .ok (some _, w) => (EXIT_OK, w)

/-- The table registered under the well-known name, with its rows. -/
def registered_table (w : fdrop_loader.world) : Option bpf_map :=
  w.pin.bind (fun id => (w.maps.find? (fun p => p.1 = id)).map Prod.snd)

end fdrop_loader

/-! ## Sample inputs -/

/-- Byte of the packet at an offset (`0` outside the packet). -/
def byte_at (pkt : List Nat) (i : Nat) : Nat := pkt.getD i 0

/-- A sample little-endian target whose parsers accept an untagged Ethernet frame
carrying an IPv4 header without options. -/
def sample_env : kern_env where
  big_endian := false
  parse_ethhdr := fun nh data_end pkt =>
    if nh.pos + 14 > data_end then (nh, -1)
    else (⟨nh.pos + 14⟩, (byte_at pkt (nh.pos + 12) + 256 * byte_at pkt (nh.pos + 13) : Nat))
  parse_iphdr := fun nh data_end pkt =>
    if nh.pos + 20 > data_end then (nh, -1, ⟨0⟩)
    else if byte_at pkt nh.pos ≠ 0x45 then (nh, -1, ⟨0⟩)
    else
      (⟨nh.pos + 20⟩, (byte_at pkt (nh.pos + 9) : Nat),
        ⟨byte_at pkt (nh.pos + 12) + 2 ^ 8 * byte_at pkt (nh.pos + 13)
          + 2 ^ 16 * byte_at pkt (nh.pos + 14) + 2 ^ 24 * byte_at pkt (nh.pos + 15)⟩)

/-- A 34-byte frame: Ethernet header with EtherType `0x0800`, IPv4 header with
protocol UDP, source `10.0.0.5`, destination `10.0.0.1`. -/
def sample_packet : List Nat :=
  [2, 0, 0, 0, 0, 1, 2, 0, 0, 0, 0, 2, 0x08, 0x00,
   0x45, 0, 0, 20, 0, 0, 0, 0, 64, 17, 0, 0, 10, 0, 0, 5, 10, 0, 0, 1]

/-- The address `10.0.0.5` as the `__u32` a little-endian host reads from the
packet. -/
def addr_10_0_0_5 : Nat := 0x0500000a

/-- A little-endian host whose map library reports negated error numbers. -/
def sample_host : host := ⟨false, true⟩

/-- An empty table with the signature declared in `fdrop_kern.c`. -/
def empty_map : bpf_map := ⟨⟨BPF_MAP_TYPE_HASH, 4, 8, FDROP_MAX_ENTRY⟩, []⟩

/-- A sample check of the signature read from the map against the expectation of
`main`: the three components that `main` assigns are compared. -/
def sample_check (info exp : bpf_map_info) : Int :=
  if exp.key_size = info.key_size ∧ exp.value_size = info.value_size
    ∧ exp.max_entries = info.max_entries then 0 else EXIT_FAIL

/-- A sample system for the loader: the map with id 7 is registered and holds a
counter for `10.0.0.5`; nothing is attached. -/
def sample_world : fdrop_loader.world :=
  ⟨[(7, ⟨empty_map.info, [(addr_10_0_0_5, 3)]⟩)], some 7, []⟩

/-- A sample configuration of the loader: interface 2. -/
def sample_config : config := ⟨2, false, 0, 0, 0⟩

/-! ## Facts about the table -/

theorem htab_lookup_erase_self (t : htab) (k : Nat) : htab_lookup (htab_erase t k) k = none := by
  induction t with
  | nil => rfl
  | cons p rest ih =>
    obtain ⟨a, b⟩ := p
    simp only [htab_erase]
    split_ifs with h
    · exact ih
    · simp only [htab_lookup, if_neg h]; exact ih

theorem htab_lookup_erase_ne (t : htab) (k j : Nat) (h : j ≠ k) :
    htab_lookup (htab_erase t k) j = htab_lookup t j := by
  induction t with
  | nil => rfl
  | cons p rest ih =>
    obtain ⟨a, b⟩ := p
    simp only [htab_erase, htab_lookup]
    split_ifs with h1 h2 h2
    · exact absurd (h2.symm.trans h1) h
    · exact ih
    · simp only [htab_lookup, if_pos h2]
    · simp only [htab_lookup, if_neg h2]; exact ih

theorem htab_lookup_erase_none (t : htab) (k j : Nat) (h : htab_lookup t j = none) :
    htab_lookup (htab_erase t k) j = none := by
  by_cases e : j = k
  · rw [e]; exact htab_lookup_erase_self t k
  · rw [htab_lookup_erase_ne t k j e]; exact h

theorem htab_lookup_store_self (t : htab) (k v c : Nat) (h : htab_lookup t k = some c) :
    htab_lookup (htab_store t k v) k = some v := by
  induction t with
  | nil => simp [htab_lookup] at h
  | cons p rest ih =>
    obtain ⟨a, b⟩ := p
    simp only [htab_store]
    split_ifs with hk
    · simp only [htab_lookup, if_pos hk]
    · simp only [htab_lookup, if_neg hk] at h ⊢
      exact ih h

theorem htab_lookup_store_ne (t : htab) (k v j : Nat) (h : j ≠ k) :
    htab_lookup (htab_store t k v) j = htab_lookup t j := by
  induction t with
  | nil => rfl
  | cons p rest ih =>
    obtain ⟨a, b⟩ := p
    simp only [htab_store]
    split_ifs with hk
    · have hj : ¬ a = j := fun e => h (e.symm.trans hk)
      simp only [htab_lookup, if_neg hj]
    · by_cases hj : a = j
      · simp only [htab_lookup, if_pos hj]
      · simp only [htab_lookup, if_neg hj]; exact ih

theorem htab_store_absent (t : htab) (k v : Nat) (h : htab_lookup t k = none) :
    htab_store t k v = t := by
  induction t with
  | nil => rfl
  | cons p rest ih =>
    obtain ⟨a, b⟩ := p
    by_cases hk : a = k
    · simp [htab_lookup, hk] at h
    · simp only [htab_lookup, if_neg hk] at h
      simp only [htab_store, if_neg hk, ih h]

theorem htab_lookup_store_none (t : htab) (k v j : Nat) (h : htab_lookup t j = none) :
    htab_lookup (htab_store t k v) j = none := by
  by_cases e : j = k
  · subst e
    rw [htab_store_absent t j v h]; exact h
  · rw [htab_lookup_store_ne t k v j e]; exact h

theorem htab_erase_absent (t : htab) (k : Nat) (h : htab_lookup t k = none) :
    htab_erase t k = t := by
  induction t with
  | nil => rfl
  | cons p rest ih =>
    obtain ⟨a, b⟩ := p
    by_cases hk : a = k
    · simp [htab_lookup, hk] at h
    · simp only [htab_lookup, if_neg hk] at h
      simp only [htab_erase, if_neg hk, ih h]

/-! ## The classifier: which path a packet takes -/

theorem fdrop_simple_not_ip (E : kern_env) (s : schedule) (m : bpf_map) (ctx : List Nat)
    (h : eth_type_of E ctx ≠ (bpf_htons E.big_endian ETH_P_IP : Int)) :
    fdrop_simple E s m ctx = (XDP_PASS, m) := by
  unfold eth_type_of at h
  unfold fdrop_simple
  simp only []
  rw [if_neg h]

theorem fdrop_simple_bad_ip (E : kern_env) (s : schedule) (m : bpf_map) (ctx : List Nat)
    (h : ip_type_of E ctx < 0) :
    fdrop_simple E s m ctx = (XDP_PASS, m) := by
  unfold ip_type_of at h
  unfold fdrop_simple
  simp only []
  rw [if_pos h]
  split_ifs <;> rfl

theorem fdrop_simple_absent (E : kern_env) (s : schedule) (m : bpf_map) (ctx : List Nat)
    (h : htab_lookup m.rows (saddr_of E ctx) = none) :
    fdrop_simple E s m ctx = (XDP_PASS, m) := by
  unfold saddr_of at h
  unfold fdrop_simple
  simp only []
  rw [h]
  split_ifs <;> rfl

theorem fdrop_simple_matched (E : kern_env) (s : schedule) (m : bpf_map) (ctx : List Nat)
    (v : Nat) (heth : eth_type_of E ctx = (bpf_htons E.big_endian ETH_P_IP : Int))
    (hip : 0 ≤ ip_type_of E ctx) (hrow : htab_lookup m.rows (saddr_of E ctx) = some v) :
    fdrop_simple E s m ctx =
      if (htab_map_update_elem
            ⟨m.info, rows_at_update s m.rows (saddr_of E ctx) ((v + 1) % 2 ^ 64)⟩
            (saddr_of E ctx) ((v + 1) % 2 ^ 64) BPF_EXIST).1 < 0
      then (XDP_ABORTED, (htab_map_update_elem
            ⟨m.info, rows_at_update s m.rows (saddr_of E ctx) ((v + 1) % 2 ^ 64)⟩
            (saddr_of E ctx) ((v + 1) % 2 ^ 64) BPF_EXIST).2)
      else (XDP_DROP, (htab_map_update_elem
            ⟨m.info, rows_at_update s m.rows (saddr_of E ctx) ((v + 1) % 2 ^ 64)⟩
            (saddr_of E ctx) ((v + 1) % 2 ^ 64) BPF_EXIST).2) := by
  unfold eth_type_of at heth
  unfold ip_type_of at hip
  unfold saddr_of at hrow ⊢
  unfold fdrop_simple rows_at_update
  simp only []
  rw [if_pos heth, if_neg (not_lt.mpr hip), hrow]

theorem htab_update_exist_present (m : bpf_map) (k v c : Nat)
    (h : htab_lookup m.rows k = some c) :
    htab_map_update_elem m k v BPF_EXIST = (0, { m with rows := (k, v) :: htab_erase m.rows k }) := by
  unfold htab_map_update_elem
  rw [h]
  simp [BPF_EXIST, BPF_NOEXIST]

theorem htab_update_exist_absent (m : bpf_map) (k v : Nat)
    (h : htab_lookup m.rows k = none) :
    htab_map_update_elem m k v BPF_EXIST = (-(ENOENT : Int), m) := by
  unfold htab_map_update_elem
  rw [h]
  simp [BPF_EXIST]

theorem concurrent_del_lookup_none (rows : htab) (d : Option Nat) (k : Nat)
    (h : htab_lookup rows k = none) : htab_lookup (concurrent_del rows d) k = none := by
  cases d with
  | none => exact h
  | some j => exact htab_lookup_erase_none rows j k h

theorem rows_at_update_lookup_none (s : schedule) (rows : htab) (key value k : Nat)
    (h : htab_lookup rows k = none) :
    htab_lookup (rows_at_update s rows key value) k = none := by
  unfold rows_at_update
  apply concurrent_del_lookup_none
  apply htab_lookup_store_none
  exact concurrent_del_lookup_none rows _ k h

theorem htab_update_exist_lookup_none (m : bpf_map) (key value k : Nat)
    (h : htab_lookup m.rows k = none) :
    htab_lookup (htab_map_update_elem m key value BPF_EXIST).2.rows k = none := by
  cases hk : htab_lookup m.rows key with
  | none => rw [htab_update_exist_absent m key value hk]; exact h
  | some c =>
    rw [htab_update_exist_present m key value c hk]
    have hne : ¬ key = k := by
      intro e
      rw [e, h] at hk
      exact absurd hk (by simp)
    simp only [htab_lookup, if_neg hne]
    exact htab_lookup_erase_none m.rows key k h

theorem fdrop_simple_lookup_none (E : kern_env) (s : schedule) (m : bpf_map) (ctx : List Nat)
    (k : Nat) (h : htab_lookup m.rows k = none) :
    htab_lookup (fdrop_simple E s m ctx).2.rows k = none := by
  by_cases heth : eth_type_of E ctx = (bpf_htons E.big_endian ETH_P_IP : Int)
  · by_cases hip : ip_type_of E ctx < 0
    · rw [fdrop_simple_bad_ip E s m ctx hip]; exact h
    · cases hrow : htab_lookup m.rows (saddr_of E ctx) with
      | none => rw [fdrop_simple_absent E s m ctx hrow]; exact h
      | some v =>
        rw [fdrop_simple_matched E s m ctx v heth (not_lt.mp hip) hrow]
        have key := htab_update_exist_lookup_none
          ⟨m.info, rows_at_update s m.rows (saddr_of E ctx) ((v + 1) % 2 ^ 64)⟩
          (saddr_of E ctx) ((v + 1) % 2 ^ 64) k
          (rows_at_update_lookup_none s m.rows _ _ k h)
        split_ifs <;> exact key
  · rw [fdrop_simple_not_ip E s m ctx heth]; exact h

/-! ## The classifier: verdicts -/

/-- C1: for an IPv4 packet with a well-formed header whose source address `A` has
a row with counter `c`, and without concurrent removal, `fdrop_simple` returns
DROP; afterwards the counter of `A` is `c + 1` modulo `2 ^ 64`, every other key
has the counter it had, and the set of keys is the same. -/
theorem fdrop_simple_drop_increments (E : kern_env) (m : bpf_map) (ctx : List Nat) (A c : Nat)
    (heth : eth_type_of E ctx = (bpf_htons E.big_endian ETH_P_IP : Int))
    (hip : 0 ≤ ip_type_of E ctx) (hsaddr : saddr_of E ctx = A)
    (hrow : htab_lookup m.rows A = some c) :
    (fdrop_simple E schedule.quiet m ctx).1 = XDP_DROP ∧
    htab_lookup (fdrop_simple E schedule.quiet m ctx).2.rows A = some ((c + 1) % 2 ^ 64) ∧
    (∀ k, k ≠ A →
      htab_lookup (fdrop_simple E schedule.quiet m ctx).2.rows k = htab_lookup m.rows k) ∧
    (∀ k, (htab_lookup (fdrop_simple E schedule.quiet m ctx).2.rows k).isSome
      = (htab_lookup m.rows k).isSome) := by
  subst hsaddr
  have hstore : htab_lookup
      (rows_at_update schedule.quiet m.rows (saddr_of E ctx) ((c + 1) % 2 ^ 64))
      (saddr_of E ctx) = some ((c + 1) % 2 ^ 64) :=
    htab_lookup_store_self m.rows _ _ c hrow
  have hres : fdrop_simple E schedule.quiet m ctx =
      (XDP_DROP, ⟨m.info, (saddr_of E ctx, (c + 1) % 2 ^ 64) ::
        htab_erase (rows_at_update schedule.quiet m.rows (saddr_of E ctx) ((c + 1) % 2 ^ 64))
          (saddr_of E ctx)⟩) := by
    rw [fdrop_simple_matched E schedule.quiet m ctx c heth hip hrow,
      htab_update_exist_present _ _ _ _ hstore]
    simp
  have hother : ∀ k, k ≠ saddr_of E ctx →
      htab_lookup (fdrop_simple E schedule.quiet m ctx).2.rows k = htab_lookup m.rows k := by
    intro k hk
    rw [hres]
    have hne : ¬ saddr_of E ctx = k := fun e => hk e.symm
    simp only [htab_lookup, if_neg hne]
    rw [htab_lookup_erase_ne _ _ _ hk]
    exact htab_lookup_store_ne m.rows _ _ k hk
  have hself : htab_lookup (fdrop_simple E schedule.quiet m ctx).2.rows (saddr_of E ctx)
      = some ((c + 1) % 2 ^ 64) := by
    rw [hres]
    simp only [htab_lookup, if_true]
  refine ⟨by rw [hres], hself, hother, ?_⟩
  intro k
  by_cases hk : k = saddr_of E ctx
  · rw [hk, hself, hrow]; rfl
  · rw [hother k hk]

/-- C2: `fdrop_simple` returns DROP only for a packet whose link-layer header
parses as IPv4, whose IP header parses without error and whose source address has
a row; for every other packet it returns PASS and leaves the map as it was; and
under every schedule a key without a row has no row afterwards. -/
theorem fdrop_simple_fail_open (E : kern_env) (s : schedule) (m : bpf_map) (ctx : List Nat) :
    ((fdrop_simple E s m ctx).1 = XDP_DROP →
      eth_type_of E ctx = (bpf_htons E.big_endian ETH_P_IP : Int) ∧ 0 ≤ ip_type_of E ctx ∧
        (htab_lookup m.rows (saddr_of E ctx)).isSome = true) ∧
    (¬ (eth_type_of E ctx = (bpf_htons E.big_endian ETH_P_IP : Int) ∧ 0 ≤ ip_type_of E ctx ∧
        (htab_lookup m.rows (saddr_of E ctx)).isSome = true) →
      fdrop_simple E s m ctx = (XDP_PASS, m)) ∧
    (∀ k, htab_lookup m.rows k = none → htab_lookup (fdrop_simple E s m ctx).2.rows k = none) := by
  have hpass : ¬ (eth_type_of E ctx = (bpf_htons E.big_endian ETH_P_IP : Int) ∧
      0 ≤ ip_type_of E ctx ∧ (htab_lookup m.rows (saddr_of E ctx)).isSome = true) →
      fdrop_simple E s m ctx = (XDP_PASS, m) := by
    intro hn
    by_cases heth : eth_type_of E ctx = (bpf_htons E.big_endian ETH_P_IP : Int)
    · by_cases hip : ip_type_of E ctx < 0
      · exact fdrop_simple_bad_ip E s m ctx hip
      · cases hrow : htab_lookup m.rows (saddr_of E ctx) with
        | none => exact fdrop_simple_absent E s m ctx hrow
        | some v => exact absurd ⟨heth, not_lt.mp hip, by rw [hrow]; rfl⟩ hn
    · exact fdrop_simple_not_ip E s m ctx heth
  refine ⟨?_, hpass, fun k h => fdrop_simple_lookup_none E s m ctx k h⟩
  intro hdrop
  by_contra hn
  rw [hpass hn] at hdrop
  have hne : XDP_PASS ≠ XDP_DROP := by decide
  exact hne hdrop

/-- C3: for an IPv4 packet with a well-formed header whose source address `A` has
a row at lookup time, when the row of `A` is removed concurrently before the
update (and nothing else is removed), `fdrop_simple` returns ABORTED; afterwards
`A` has no row and every other key has the counter it had. -/
theorem fdrop_simple_race_aborted (E : kern_env) (s : schedule) (m : bpf_map) (ctx : List Nat)
    (A c : Nat)
    (heth : eth_type_of E ctx = (bpf_htons E.big_endian ETH_P_IP : Int))
    (hip : 0 ≤ ip_type_of E ctx) (hsaddr : saddr_of E ctx = A)
    (hrow : htab_lookup m.rows A = some c)
    (hs1 : s.del_before_store = none ∨ s.del_before_store = some A)
    (hs2 : s.del_after_store = none ∨ s.del_after_store = some A)
    (hrace : s.del_before_store = some A ∨ s.del_after_store = some A) :
    (fdrop_simple E s m ctx).1 = XDP_ABORTED ∧
    htab_lookup (fdrop_simple E s m ctx).2.rows A = none ∧
    (∀ k, k ≠ A → htab_lookup (fdrop_simple E s m ctx).2.rows k = htab_lookup m.rows k) := by
  subst hsaddr
  obtain ⟨d1, d2⟩ := s
  simp only at hs1 hs2 hrace
  have hgone : htab_lookup
      (rows_at_update ⟨d1, d2⟩ m.rows (saddr_of E ctx) ((c + 1) % 2 ^ 64)) (saddr_of E ctx)
      = none := by
    unfold rows_at_update
    rcases hs2 with h2 | h2
    · rcases hrace with h1 | h1'
      · subst h1; subst h2
        simp only [concurrent_del]
        exact htab_lookup_store_none _ _ _ _ (htab_lookup_erase_self _ _)
      · rw [h2] at h1'; exact absurd h1' (by simp)
    · subst h2
      simp only [concurrent_del]
      exact htab_lookup_erase_self _ _
  have hkeep : ∀ k, k ≠ saddr_of E ctx → htab_lookup
      (rows_at_update ⟨d1, d2⟩ m.rows (saddr_of E ctx) ((c + 1) % 2 ^ 64)) k
      = htab_lookup m.rows k := by
    intro k hk
    unfold rows_at_update
    have e1 : htab_lookup (concurrent_del m.rows d1) k = htab_lookup m.rows k := by
      rcases hs1 with h | h <;> subst h
      · rfl
      · exact htab_lookup_erase_ne _ _ _ hk
    have e2 : htab_lookup (htab_store (concurrent_del m.rows d1) (saddr_of E ctx)
        ((c + 1) % 2 ^ 64)) k = htab_lookup m.rows k := by
      rw [htab_lookup_store_ne _ _ _ _ hk]; exact e1
    rcases hs2 with h | h <;> subst h
    · exact e2
    · simp only [concurrent_del]
      rw [htab_lookup_erase_ne _ _ _ hk]; exact e2
  have hres : fdrop_simple E ⟨d1, d2⟩ m ctx =
      (XDP_ABORTED,
        ⟨m.info, rows_at_update ⟨d1, d2⟩ m.rows (saddr_of E ctx) ((c + 1) % 2 ^ 64)⟩) := by
    rw [fdrop_simple_matched E ⟨d1, d2⟩ m ctx c heth hip hrow,
      htab_update_exist_absent _ _ _ hgone]
    simp [ENOENT]
  rw [hres]
  exact ⟨rfl, hgone, hkeep⟩

/-- Witness for C1: the end-to-end scenario.  `10.0.0.5` is added to an empty
table and a packet from `10.0.0.5` arrives. -/
theorem fdrop_simple_drop_increments_witness :
    htab_lookup (fdrop_map_add sample_host ⟨empty_map, 0, []⟩ addr_10_0_0_5).2.map.rows
      addr_10_0_0_5 = some 0 ∧
    (fdrop_simple sample_env schedule.quiet
      (fdrop_map_add sample_host ⟨empty_map, 0, []⟩ addr_10_0_0_5).2.map sample_packet).1
      = XDP_DROP ∧
    htab_lookup (fdrop_simple sample_env schedule.quiet
      (fdrop_map_add sample_host ⟨empty_map, 0, []⟩ addr_10_0_0_5).2.map sample_packet).2.rows
      addr_10_0_0_5 = some 1 :=
  have h := fdrop_simple_drop_increments sample_env
    (fdrop_map_add sample_host ⟨empty_map, 0, []⟩ addr_10_0_0_5).2.map sample_packet
    addr_10_0_0_5 0 (by decide) (by decide) (by decide) (by decide)
  ⟨by decide, h.1, h.2.1⟩

/-- Witness for C3: the row of `10.0.0.5` is deleted between the store and the
update while a packet from `10.0.0.5` is handled. -/
theorem fdrop_simple_race_aborted_witness :
    (fdrop_simple sample_env ⟨none, some addr_10_0_0_5⟩
      ⟨empty_map.info, [(7, 3), (addr_10_0_0_5, 41)]⟩ sample_packet).1 = XDP_ABORTED ∧
    htab_lookup (fdrop_simple sample_env ⟨none, some addr_10_0_0_5⟩
      ⟨empty_map.info, [(7, 3), (addr_10_0_0_5, 41)]⟩ sample_packet).2.rows addr_10_0_0_5
      = none :=
  have h := fdrop_simple_race_aborted sample_env ⟨none, some addr_10_0_0_5⟩
    ⟨empty_map.info, [(7, 3), (addr_10_0_0_5, 41)]⟩ sample_packet addr_10_0_0_5 41
    (by decide) (by decide) (by decide) (by decide) (Or.inl rfl) (Or.inr rfl) (Or.inr rfl)
  ⟨h.1, h.2.1⟩

/-! ## The administrative operations -/

theorem libbpf_err_errno_ne_zero (d : Bool) (e : Nat) (h : e ≠ 0) :
    libbpf_err_errno d (-1) e ≠ 0 := by
  unfold libbpf_err_errno
  cases d
  · simp
  · simp only [if_true]
    rw [if_pos (by decide)]
    omega

theorem bpf_map_lookup_elem_some (H : host) (st : ustate) (k value c : Nat)
    (h : htab_lookup st.map.rows k = some c) :
    bpf_map_lookup_elem H st k value = (0, c, st) := by
  unfold bpf_map_lookup_elem
  rw [h]

theorem bpf_map_lookup_elem_none (H : host) (st : ustate) (k value : Nat)
    (h : htab_lookup st.map.rows k = none) :
    bpf_map_lookup_elem H st k value =
      (libbpf_err_errno H.direct_errs (-1) ENOENT, value, { st with errno := ENOENT }) := by
  unfold bpf_map_lookup_elem
  rw [h]

theorem bpf_map_update_elem_any_present (H : host) (st : ustate) (k v c : Nat)
    (h : htab_lookup st.map.rows k = some c) :
    bpf_map_update_elem H st k v BPF_ANY =
      (0, { st with map := ⟨st.map.info, (k, v) :: htab_erase st.map.rows k⟩ }) := by
  have hk : htab_map_update_elem st.map k v BPF_ANY =
      (0, ⟨st.map.info, (k, v) :: htab_erase st.map.rows k⟩) := by
    unfold htab_map_update_elem
    rw [h]
    simp [BPF_ANY, BPF_EXIST, BPF_NOEXIST]
  unfold bpf_map_update_elem
  rw [hk]
  simp

theorem bpf_map_update_elem_any_room (H : host) (st : ustate) (k v : Nat)
    (h : htab_lookup st.map.rows k = none)
    (hroom : st.map.rows.length < st.map.info.max_entries) :
    bpf_map_update_elem H st k v BPF_ANY =
      (0, { st with map := ⟨st.map.info, (k, v) :: st.map.rows⟩ }) := by
  have hk : htab_map_update_elem st.map k v BPF_ANY =
      (0, ⟨st.map.info, (k, v) :: st.map.rows⟩) := by
    unfold htab_map_update_elem
    rw [h]
    simp [BPF_ANY, BPF_EXIST, not_le.mpr hroom]
  unfold bpf_map_update_elem
  rw [hk]
  simp

theorem bpf_map_update_elem_any_full (H : host) (st : ustate) (k v : Nat)
    (h : htab_lookup st.map.rows k = none)
    (hfull : st.map.info.max_entries ≤ st.map.rows.length) :
    bpf_map_update_elem H st k v BPF_ANY =
      (libbpf_err_errno H.direct_errs (-1) E2BIG, { st with errno := E2BIG }) := by
  have hk : htab_map_update_elem st.map k v BPF_ANY = (-(E2BIG : Int), st.map) := by
    unfold htab_map_update_elem
    rw [h]
    simp [BPF_ANY, BPF_EXIST, hfull]
  unfold bpf_map_update_elem
  rw [hk]
  simp [E2BIG]

theorem fdrop_map_add_present (H : host) (st : ustate) (A c : Nat)
    (h : htab_lookup st.map.rows A = some c) :
    fdrop_map_add H st A =
      (0, ⟨⟨st.map.info, (A, c) :: htab_erase st.map.rows A⟩, st.errno,
        st.out ++ [.add_success (u32_to_ip_str H A)]⟩) := by
  unfold fdrop_map_add
  simp only [bpf_map_lookup_elem_some H st A 0 c h, ne_eq, not_true_eq_false, if_false,
    bpf_map_update_elem_any_present H st A c c h, ustate.printf]

theorem fdrop_map_add_absent (H : host) (st : ustate) (A : Nat)
    (h : htab_lookup st.map.rows A = none) (hroom : st.map.rows.length < st.map.info.max_entries) :
    fdrop_map_add H st A =
      (0, ⟨⟨st.map.info, (A, 0) :: st.map.rows⟩, ENOENT,
        st.out ++ [.add_new (u32_to_ip_str H A), .add_success (u32_to_ip_str H A)]⟩) := by
  have hne := libbpf_err_errno_ne_zero H.direct_errs ENOENT (by decide)
  unfold fdrop_map_add
  simp only [bpf_map_lookup_elem_none H st A 0 h, ne_eq, hne, not_false_eq_true, if_true,
    ustate.printf]
  rw [bpf_map_update_elem_any_room H
    (ustate.mk st.map ENOENT (st.out ++ [out_line.add_new (u32_to_ip_str H A)])) A 0 h hroom]
  simp

theorem fdrop_map_add_full (H : host) (st : ustate) (A : Nat)
    (h : htab_lookup st.map.rows A = none) (hfull : st.map.info.max_entries ≤ st.map.rows.length) :
    (fdrop_map_add H st A).1 ≠ 0 ∧ (fdrop_map_add H st A).2.map = st.map := by
  have hne := libbpf_err_errno_ne_zero H.direct_errs ENOENT (by decide)
  have hne2 := libbpf_err_errno_ne_zero H.direct_errs E2BIG (by decide)
  unfold fdrop_map_add
  simp only [bpf_map_lookup_elem_none H st A 0 h, ne_eq, hne, not_false_eq_true, if_true,
    ustate.printf]
  rw [bpf_map_update_elem_any_full H
    (ustate.mk st.map ENOENT (st.out ++ [out_line.add_new (u32_to_ip_str H A)])) A 0 h hfull]
  simp only [ne_eq, hne2, not_false_eq_true, if_true, and_self]

theorem fdrop_map_get_present (H : host) (st : ustate) (A c : Nat)
    (h : htab_lookup st.map.rows A = some c) :
    fdrop_map_get H st A =
      (to_int c, st.printf (out_line.get_counter (u32_to_ip_str H A) c)) := by
  unfold fdrop_map_get
  simp only [bpf_map_lookup_elem_some H st A 0 c h, ne_eq, not_true_eq_false, if_false]

theorem fdrop_map_get_absent (H : host) (st : ustate) (A : Nat)
    (h : htab_lookup st.map.rows A = none) :
    fdrop_map_get H st A =
      (libbpf_err_errno H.direct_errs (-1) ENOENT,
        (ustate.mk st.map ENOENT st.out).printf (out_line.get_failed (u32_to_ip_str H A))) := by
  have hne := libbpf_err_errno_ne_zero H.direct_errs ENOENT (by decide)
  unfold fdrop_map_get
  simp only [bpf_map_lookup_elem_none H st A 0 h, ne_eq, hne, not_false_eq_true, if_true]

theorem bpf_map_delete_elem_present (H : host) (st : ustate) (k c : Nat)
    (h : htab_lookup st.map.rows k = some c) :
    bpf_map_delete_elem H st k =
      (0, ustate.mk ⟨st.map.info, htab_erase st.map.rows k⟩ st.errno st.out) := by
  have hk : htab_map_delete_elem st.map k = (0, ⟨st.map.info, htab_erase st.map.rows k⟩) := by
    unfold htab_map_delete_elem
    rw [h]
  unfold bpf_map_delete_elem
  rw [hk]
  simp

theorem bpf_map_delete_elem_absent (H : host) (st : ustate) (k : Nat)
    (h : htab_lookup st.map.rows k = none) :
    bpf_map_delete_elem H st k =
      (libbpf_err_errno H.direct_errs (-1) ENOENT, ustate.mk st.map ENOENT st.out) := by
  have hk : htab_map_delete_elem st.map k = (-(ENOENT : Int), st.map) := by
    unfold htab_map_delete_elem
    rw [h]
  unfold bpf_map_delete_elem
  rw [hk]
  simp [ENOENT]

theorem fdrop_map_del_present (H : host) (st : ustate) (A c : Nat)
    (h : htab_lookup st.map.rows A = some c) :
    fdrop_map_del H st A =
      (0, (ustate.mk ⟨st.map.info, htab_erase st.map.rows A⟩ st.errno st.out).printf
        (out_line.del_success (u32_to_ip_str H A))) := by
  unfold fdrop_map_del
  simp only [bpf_map_delete_elem_present H st A c h, ne_eq, not_true_eq_false, if_false]

theorem fdrop_map_del_absent (H : host) (st : ustate) (A : Nat)
    (h : htab_lookup st.map.rows A = none) :
    fdrop_map_del H st A =
      (0, (ustate.mk st.map ENOENT st.out).printf (out_line.del_absent (u32_to_ip_str H A))) := by
  have hne := libbpf_err_errno_ne_zero H.direct_errs ENOENT (by decide)
  unfold fdrop_map_del
  simp only [bpf_map_delete_elem_absent H st A h, ne_eq, hne, not_false_eq_true, if_true]

/-- C4: when `A` already has a row with counter `c`, `fdrop_map_add` succeeds and
leaves the counter of `A` at `c`; every other key keeps its counter and the set of
keys is the same. -/
theorem fdrop_map_add_keeps_counter (H : host) (st : ustate) (A c : Nat)
    (hrow : htab_lookup st.map.rows A = some c) :
    (fdrop_map_add H st A).1 = 0 ∧
    htab_lookup (fdrop_map_add H st A).2.map.rows A = some c ∧
    (∀ k, k ≠ A → htab_lookup (fdrop_map_add H st A).2.map.rows k = htab_lookup st.map.rows k) ∧
    (∀ k, (htab_lookup (fdrop_map_add H st A).2.map.rows k).isSome
      = (htab_lookup st.map.rows k).isSome) := by
  rw [fdrop_map_add_present H st A c hrow]
  have hself : htab_lookup ((A, c) :: htab_erase st.map.rows A) A = some c := by
    simp only [htab_lookup, if_true]
  have hother : ∀ k, k ≠ A →
      htab_lookup ((A, c) :: htab_erase st.map.rows A) k = htab_lookup st.map.rows k := by
    intro k hk
    have hne : ¬ A = k := fun e => hk e.symm
    simp only [htab_lookup, if_neg hne]
    exact htab_lookup_erase_ne _ _ _ hk
  refine ⟨rfl, hself, hother, ?_⟩
  intro k
  by_cases hk : k = A
  · show (htab_lookup ((A, c) :: htab_erase st.map.rows A) k).isSome = _
    rw [hk, hself, hrow]
  · show (htab_lookup ((A, c) :: htab_erase st.map.rows A) k).isSome = _
    rw [hother k hk]

/-- Witness for C4: `10.0.0.5` is added, one packet from it is dropped, and it is
added again; the counter stays at `1`. -/
theorem fdrop_map_add_keeps_counter_witness :
    htab_lookup (fdrop_map_add sample_host
      ⟨(fdrop_simple sample_env schedule.quiet
        (fdrop_map_add sample_host ⟨empty_map, 0, []⟩ addr_10_0_0_5).2.map sample_packet).2,
        0, []⟩ addr_10_0_0_5).2.map.rows addr_10_0_0_5 = some 1 :=
  (fdrop_map_add_keeps_counter sample_host
    ⟨(fdrop_simple sample_env schedule.quiet
      (fdrop_map_add sample_host ⟨empty_map, 0, []⟩ addr_10_0_0_5).2.map sample_packet).2,
      0, []⟩ addr_10_0_0_5 1 (by decide)).2.1

/-- C5 as stated fails: `10.0.0.5` is added, one packet from it is dropped, and it
is added again with success; `fdrop_map_get` then returns `1`, not `0`. -/
theorem fdrop_map_get_after_add_nonzero :
    (fdrop_map_add sample_host
      ⟨(fdrop_simple sample_env schedule.quiet
        (fdrop_map_add sample_host ⟨empty_map, 0, []⟩ addr_10_0_0_5).2.map sample_packet).2,
        0, []⟩ addr_10_0_0_5).1 = 0 ∧
    (fdrop_map_get sample_host (fdrop_map_add sample_host
      ⟨(fdrop_simple sample_env schedule.quiet
        (fdrop_map_add sample_host ⟨empty_map, 0, []⟩ addr_10_0_0_5).2.map sample_packet).2,
        0, []⟩ addr_10_0_0_5).2 addr_10_0_0_5).1 = 1 := by
  decide

/-- C5, amended: in a table where `A` has no row or has counter `0`, after
`fdrop_map_add` of `A` succeeds `fdrop_map_get` of `A` returns `0`. -/
theorem fdrop_map_get_after_add (H : host) (st : ustate) (A : Nat)
    (hfresh : htab_lookup st.map.rows A = none ∨ htab_lookup st.map.rows A = some 0)
    (hadd : (fdrop_map_add H st A).1 = 0) :
    (fdrop_map_get H (fdrop_map_add H st A).2 A).1 = 0 := by
  have hzero : htab_lookup (fdrop_map_add H st A).2.map.rows A = some 0 := by
    rcases hfresh with h | h
    · by_cases hroom : st.map.rows.length < st.map.info.max_entries
      · rw [fdrop_map_add_absent H st A h hroom]
        simp only [htab_lookup, if_true]
      · exact absurd hadd (fdrop_map_add_full H st A h (not_lt.mp hroom)).1
    · rw [fdrop_map_add_present H st A 0 h]
      simp only [htab_lookup, if_true]
  rw [fdrop_map_get_present H _ A 0 hzero]
  rfl

/-- Witness for C5, amended: `10.0.0.5` is added to an empty table. -/
theorem fdrop_map_get_after_add_witness :
    (fdrop_map_add sample_host ⟨empty_map, 0, []⟩ addr_10_0_0_5).1 = 0 ∧
    (fdrop_map_get sample_host
      (fdrop_map_add sample_host ⟨empty_map, 0, []⟩ addr_10_0_0_5).2 addr_10_0_0_5).1 = 0 :=
  ⟨by decide, fdrop_map_get_after_add sample_host ⟨empty_map, 0, []⟩ addr_10_0_0_5
    (Or.inl (by decide)) (by decide)⟩

/-- C8: `fdrop_map_del` of an address without a row returns `0` and leaves the map
as it was; `fdrop_map_del` of an address with a row returns `0`, removes that row
and leaves every other key with its counter. -/
theorem fdrop_map_del_ok (H : host) (st : ustate) (A : Nat) :
    (htab_lookup st.map.rows A = none →
      (fdrop_map_del H st A).1 = 0 ∧ (fdrop_map_del H st A).2.map = st.map) ∧
    ((htab_lookup st.map.rows A).isSome = true →
      (fdrop_map_del H st A).1 = 0 ∧
      htab_lookup (fdrop_map_del H st A).2.map.rows A = none ∧
      ∀ k, k ≠ A →
        htab_lookup (fdrop_map_del H st A).2.map.rows k = htab_lookup st.map.rows k) := by
  constructor
  · intro h
    rw [fdrop_map_del_absent H st A h]
    exact ⟨rfl, rfl⟩
  · intro h
    cases hc : htab_lookup st.map.rows A with
    | none => rw [hc] at h; exact absurd h (by simp)
    | some c =>
      rw [fdrop_map_del_present H st A c hc]
      exact ⟨rfl, htab_lookup_erase_self _ _, fun k hk => htab_lookup_erase_ne _ _ _ hk⟩

/-- C7 fails on the code: the `int` result of `fdrop_map_get` for a present
address can equal the result for an absent one.  With a library that reports
negated error numbers a counter of `2 ^ 32 - 2` gives `-2`, the result for an
absent address; with a library that reports `-1` a counter of `2 ^ 32 - 1` gives
`-1`. -/
theorem fdrop_map_get_result_collides :
    (htab_lookup [(addr_10_0_0_5, 4294967294)] addr_10_0_0_5 = some 4294967294 ∧
      htab_lookup [(addr_10_0_0_5, 4294967294)] 7 = none ∧
      (fdrop_map_get ⟨false, true⟩
        ⟨⟨empty_map.info, [(addr_10_0_0_5, 4294967294)]⟩, 0, []⟩ addr_10_0_0_5).1 = -2 ∧
      (fdrop_map_get ⟨false, true⟩
        ⟨⟨empty_map.info, [(addr_10_0_0_5, 4294967294)]⟩, 0, []⟩ 7).1 = -2) ∧
    (htab_lookup [(addr_10_0_0_5, 4294967295)] addr_10_0_0_5 = some 4294967295 ∧
      htab_lookup [(addr_10_0_0_5, 4294967295)] 7 = none ∧
      (fdrop_map_get ⟨false, false⟩
        ⟨⟨empty_map.info, [(addr_10_0_0_5, 4294967295)]⟩, 0, []⟩ addr_10_0_0_5).1 = -1 ∧
      (fdrop_map_get ⟨false, false⟩
        ⟨⟨empty_map.info, [(addr_10_0_0_5, 4294967295)]⟩, 0, []⟩ 7).1 = -1) := by
  decide

/-- The lines that `fdrop_map_get` writes do tell the two cases apart and carry
the full counter: a present address yields one more line, the counter line with
the 64-bit value, an absent one the failure line. -/
theorem fdrop_map_get_output (H : host) (st : ustate) (A : Nat) :
    (∀ c, htab_lookup st.map.rows A = some c →
      (fdrop_map_get H st A).2.out = st.out ++ [out_line.get_counter (u32_to_ip_str H A) c]) ∧
    (htab_lookup st.map.rows A = none →
      (fdrop_map_get H st A).2.out = st.out ++ [out_line.get_failed (u32_to_ip_str H A)]) := by
  constructor
  · intro c h
    rw [fdrop_map_get_present H st A c h]; rfl
  · intro h
    rw [fdrop_map_get_absent H st A h]; rfl

/-- For a counter below `2 ^ 31` the `int` result of `fdrop_map_get` is the counter
and differs from the result for an absent address. -/
theorem fdrop_map_get_small_counter (H : host) (st : ustate) (A B c : Nat)
    (hrow : htab_lookup st.map.rows A = some c) (hsmall : c < 2 ^ 31)
    (habs : htab_lookup st.map.rows B = none) :
    (fdrop_map_get H st A).1 = (c : Int) ∧ (fdrop_map_get H st A).1 ≠ (fdrop_map_get H st B).1 := by
  rw [fdrop_map_get_present H st A c hrow, fdrop_map_get_absent H st B habs]
  have hc : to_int c = (c : Int) := by
    unfold to_int
    have h1 : c % 2 ^ 32 = c := Nat.mod_eq_of_lt (by omega)
    rw [h1, if_pos hsmall]
  have hneg : libbpf_err_errno H.direct_errs (-1) ENOENT < 0 := by
    unfold libbpf_err_errno ENOENT
    cases H.direct_errs <;> simp
  refine ⟨hc, ?_⟩
  show to_int c ≠ libbpf_err_errno H.direct_errs (-1) ENOENT
  rw [hc]
  omega

/-! ## Iteration over the table -/

theorem htab_lookup_append_mid (pre rest : htab) (k v : Nat)
    (hpre : k ∉ pre.map Prod.fst) :
    htab_lookup (pre ++ (k, v) :: rest) k = some v := by
  induction pre with
  | nil => simp only [List.nil_append, htab_lookup, if_true]
  | cons p pre ih =>
    obtain ⟨a, b⟩ := p
    simp only [List.map_cons, List.mem_cons, not_or] at hpre
    have hne : ¬ a = k := fun e => hpre.1 e.symm
    simp only [List.cons_append, htab_lookup, if_neg hne]
    exact ih hpre.2

theorem htab_after_append_mid (pre rest : htab) (k v : Nat)
    (hpre : k ∉ pre.map Prod.fst) :
    htab_after (pre ++ (k, v) :: rest) k = rest.head?.map Prod.fst := by
  induction pre with
  | nil => simp only [List.nil_append, htab_after, if_true]
  | cons p pre ih =>
    obtain ⟨a, b⟩ := p
    simp only [List.map_cons, List.mem_cons, not_or] at hpre
    have hne : ¬ a = k := fun e => hpre.1 e.symm
    simp only [List.cons_append, htab_after, if_neg hne]
    exact ih hpre.2

theorem bpf_map_get_next_key_first (H : host) (st : ustate) (key next_key k1 v1 : Nat)
    (rest : htab) (habs : htab_lookup st.map.rows key = none)
    (hrows : st.map.rows = (k1, v1) :: rest) :
    bpf_map_get_next_key H st key next_key = (0, k1, st) := by
  have hk : htab_map_get_next_key st.map key = (0, some k1) := by
    unfold htab_map_get_next_key
    rw [habs, hrows]
    rfl
  unfold bpf_map_get_next_key
  rw [hk]

theorem bpf_map_get_next_key_empty (H : host) (st : ustate) (key next_key : Nat)
    (hrows : st.map.rows = []) :
    bpf_map_get_next_key H st key next_key =
      (libbpf_err_errno H.direct_errs (-1) ENOENT, next_key, ustate.mk st.map ENOENT st.out) := by
  have hk : htab_map_get_next_key st.map key = (-(ENOENT : Int), none) := by
    unfold htab_map_get_next_key
    rw [hrows]
    rfl
  unfold bpf_map_get_next_key
  rw [hk]
  simp [ENOENT]

theorem bpf_map_get_next_key_next (H : host) (st : ustate) (key next_key v k2 : Nat)
    (hrow : htab_lookup st.map.rows key = some v)
    (hafter : htab_after st.map.rows key = some k2) :
    bpf_map_get_next_key H st key next_key = (0, k2, st) := by
  have hk : htab_map_get_next_key st.map key = (0, some k2) := by
    unfold htab_map_get_next_key
    rw [hrow]
    simp only []
    rw [hafter]
  unfold bpf_map_get_next_key
  rw [hk]

theorem bpf_map_get_next_key_last (H : host) (st : ustate) (key next_key v : Nat)
    (hrow : htab_lookup st.map.rows key = some v)
    (hafter : htab_after st.map.rows key = none) :
    bpf_map_get_next_key H st key next_key =
      (libbpf_err_errno H.direct_errs (-1) ENOENT, next_key, ustate.mk st.map ENOENT st.out) := by
  have hk : htab_map_get_next_key st.map key = (-(ENOENT : Int), none) := by
    unfold htab_map_get_next_key
    rw [hrow]
    simp only []
    rw [hafter]
  unfold bpf_map_get_next_key
  rw [hk]
  simp [ENOENT]

theorem fdrop_map_dump_loop_from (H : host) (m : bpf_map) (rest : htab) :
    ∀ (pre : htab) (k v fuel errno value next_key : Nat) (out : List out_line),
      m.rows = pre ++ (k, v) :: rest → (m.rows.map Prod.fst).Nodup → rest.length < fuel →
      fdrop_map_dump_loop H fuel ⟨m, errno, out⟩ value k next_key =
        some ⟨m, ENOENT, out ++ rest.map (dump_line H)⟩ := by
  induction rest with
  | nil =>
    intro pre k v fuel errno value next_key out hrows hnd hfuel
    have hpre : k ∉ pre.map Prod.fst := by
      rw [hrows] at hnd
      simp only [List.map_append, List.map_cons] at hnd
      have := (List.nodup_append.mp hnd).2.2
      intro hmem
      exact this hmem (List.mem_cons_self _ _) 
    obtain ⟨f, rfl⟩ : ∃ f, fuel = f + 1 := ⟨fuel - 1, by omega⟩
    have hne := libbpf_err_errno_ne_zero H.direct_errs ENOENT (by decide)
    have hrow : htab_lookup m.rows k = some v := by
      rw [hrows]; exact htab_lookup_append_mid pre [] k v hpre
    have hafter : htab_after m.rows k = none := by
      rw [hrows, htab_after_append_mid pre [] k v hpre]; rfl
    unfold fdrop_map_dump_loop
    rw [bpf_map_get_next_key_last H ⟨m, errno, out⟩ k next_key v hrow hafter]
    simp only [hne, if_false, List.map_nil, List.append_nil]
  | cons p rest ih =>
    intro pre k v fuel errno value next_key out hrows hnd hfuel
    obtain ⟨k2, v2⟩ := p
    have hnd2 := hnd
    rw [hrows] at hnd2
    simp only [List.map_append, List.map_cons] at hnd2
    have hpre : k ∉ pre.map Prod.fst := by
      have := (List.nodup_append.mp hnd2).2.2
      intro hmem
      exact this hmem (List.mem_cons_self _ _)
    have hrows2 : m.rows = (pre ++ [(k, v)]) ++ (k2, v2) :: rest := by
      rw [hrows]; simp
    have hpre2 : k2 ∉ (pre ++ [(k, v)]).map Prod.fst := by
      have hd := (List.nodup_append.mp hnd2).2.2
      have hk := (List.nodup_cons.mp (List.nodup_append.mp hnd2).2.1).1
      simp only [List.map_append, List.map_cons, List.map_nil, List.mem_append,
        List.mem_singleton, not_or]
      constructor
      · intro hmem
        exact hd hmem (List.mem_cons_of_mem _ (List.mem_cons_self _ _))
      · intro e
        exact hk (e ▸ List.mem_cons_self _ _)
    obtain ⟨f, rfl⟩ : ∃ f, fuel = f + 1 := ⟨fuel - 1, by omega⟩
    have hrow : htab_lookup m.rows k = some v := by
      rw [hrows]; exact htab_lookup_append_mid pre _ k v hpre
    have hafter : htab_after m.rows k = some k2 := by
      rw [hrows, htab_after_append_mid pre _ k v hpre]; rfl
    have hrow2 : htab_lookup m.rows k2 = some v2 := by
      rw [hrows2]; exact htab_lookup_append_mid _ rest k2 v2 hpre2
    unfold fdrop_map_dump_loop
    rw [bpf_map_get_next_key_next H ⟨m, errno, out⟩ k next_key v k2 hrow hafter]
    simp only [if_true]
    rw [bpf_map_lookup_elem_some H ⟨m, errno, out⟩ k2 value v2 hrow2]
    simp only [ustate.printf]
    rw [ih (pre ++ [(k, v)]) k2 v2 f errno v2 k2 _ hrows2 hnd (by simpa using hfuel)]
    simp [dump_line]

/-- When `0.0.0.0` (the key `0`, with which the cursor of `fdrop_map_dump` starts)
has no row, the dump of a table with distinct keys terminates within
`length + 1` iterations, returns `0`, leaves the map as it was and writes exactly
one line per row, in iteration order, with the counter of the row. -/
theorem fdrop_map_dump_complete (H : host) (st : ustate) (fuel : Nat)
    (hnd : (st.map.rows.map Prod.fst).Nodup) (hzero : htab_lookup st.map.rows 0 = none)
    (hfuel : st.map.rows.length < fuel) :
    fdrop_map_dump H fuel st =
      some (0, ⟨st.map, ENOENT, st.out ++ st.map.rows.map (dump_line H)⟩) := by
  obtain ⟨m, errno, out⟩ := st
  simp only at hnd hzero hfuel
  obtain ⟨f, rfl⟩ : ∃ f, fuel = f + 1 := ⟨fuel - 1, by omega⟩
  have hne := libbpf_err_errno_ne_zero H.direct_errs ENOENT (by decide)
  unfold fdrop_map_dump
  cases hrows : m.rows with
  | nil =>
    unfold fdrop_map_dump_loop
    rw [bpf_map_get_next_key_empty H ⟨m, errno, out⟩ 0 0 hrows]
    simp only [hne, if_false, List.map_nil, List.append_nil, Option.map_some']
  | cons p rest =>
    obtain ⟨k1, v1⟩ := p
    have hrow1 : htab_lookup m.rows k1 = some v1 := by
      rw [hrows]; simp only [htab_lookup, if_true]
    unfold fdrop_map_dump_loop
    rw [bpf_map_get_next_key_first H ⟨m, errno, out⟩ 0 0 k1 v1 rest hzero hrows]
    simp only [if_true]
    rw [bpf_map_lookup_elem_some H ⟨m, errno, out⟩ k1 0 v1 hrow1]
    simp only [ustate.printf]
    rw [fdrop_map_dump_loop_from H m rest [] k1 v1 f errno v1 k1 _ (by rw [hrows]; rfl) hnd
      (by rw [hrows] at hfuel; simpa using hfuel)]
    simp [dump_line]

/-- C6 fails on the code when `0.0.0.0` is among the addresses: the cursor of
`fdrop_map_dump` starts at the key `0`, so the dump begins after the row of
`0.0.0.0`.  After adding only `0.0.0.0` to the empty table the address has a
row, yet with any fuel the dump writes no line and returns `0`; after adding
`10.0.0.5` and then `0.0.0.0` the dump writes the line of `10.0.0.5` only; after
adding `0.0.0.0` and then `10.0.0.5` it writes no line. -/
theorem fdrop_map_dump_misses_zero (fuel : Nat) :
    (htab_lookup (fdrop_map_add sample_host ⟨empty_map, 0, []⟩ 0).2.map.rows 0 = some 0 ∧
      (fdrop_map_dump sample_host (fuel + 1)
        ⟨(fdrop_map_add sample_host ⟨empty_map, 0, []⟩ 0).2.map, 0, []⟩).map
          (fun r => (r.1, r.2.out)) = some (0, [])) ∧
    (fdrop_map_dump sample_host (fuel + 2)
        ⟨(fdrop_map_add sample_host
          (fdrop_map_add sample_host ⟨empty_map, 0, []⟩ addr_10_0_0_5).2 0).2.map, 0, []⟩).map
          (fun r => (r.1, r.2.out)) = some (0, [out_line.dump_row [10, 0, 0, 5] 0]) ∧
    (fdrop_map_dump sample_host (fuel + 1)
        ⟨(fdrop_map_add sample_host
          (fdrop_map_add sample_host ⟨empty_map, 0, []⟩ 0).2 addr_10_0_0_5).2.map, 0, []⟩).map
          (fun r => (r.1, r.2.out)) = some (0, []) := by
  refine ⟨⟨by decide, ?_⟩, ?_, ?_⟩
  · rfl
  · rfl
  · rfl

/-! ## The administrative tool: opening the table -/

/-- The expectation that `main` passes to `check_map_fd_info` leaves the store
kind unset, so it is not the signature of the block list. -/
theorem map_expect_kind_unset :
    fdrop_ops.map_expect.type = 0 ∧ fdrop_ops.map_expect ≠ fdrop_ops.expected_signature := by
  decide

theorem signature_mismatch (info : bpf_map_info)
    (h : info.key_size ≠ 4 ∨ info.value_size ≠ 8 ∨ info.max_entries ≠ FDROP_MAX_ENTRY ∨
      info.type ≠ BPF_MAP_TYPE_HASH) :
    info ≠ fdrop_ops.expected_signature := by
  intro e
  rw [e] at h
  revert h
  decide

/-- C9: for every requested operation and every `check_map_fd_info`, when no table
is registered under the name, or the registered table differs from the expected
signature in key size (4), value size (8), capacity (4096) or store kind (hash),
or the check of `main` rejects it, `main` of `fdrop_ops` ends with a non-zero exit
code, the registered table and `errno` are as before, and the only lines written
are the diagnostics that precede the operations. -/
theorem ops_main_rejects (H : host) (verbose : Bool) (fuel : Nat)
    (chk : bpf_map_info → bpf_map_info → Int) (cfg : config) (w : fdrop_ops.world)
    (h : w.pin = none ∨ ∃ m, w.pin = some m ∧
      (m.info.key_size ≠ 4 ∨ m.info.value_size ≠ 8 ∨ m.info.max_entries ≠ FDROP_MAX_ENTRY ∨
        m.info.type ≠ BPF_MAP_TYPE_HASH ∨ chk m.info fdrop_ops.map_expect ≠ 0)) :
    ∃ code w2, fdrop_ops.main H verbose fuel chk cfg w = some (code, w2) ∧ code ≠ 0 ∧
      w2.pin = w.pin ∧ w2.errno = w.errno ∧
      ∀ l ∈ w2.out, l ∈ w.out ∨ l = out_line.err_dev_missing ∨ l = out_line.open_success ∨
        l = out_line.err_not_compatible := by
  by_cases hdev : cfg.ifindex = -1
  · refine ⟨EXIT_FAIL_OPTION, { w with out := w.out ++ [out_line.err_dev_missing] }, ?_,
      by decide, rfl, rfl, ?_⟩
    · unfold fdrop_ops.main
      simp only [hdev, if_true]
    · intro l hl
      simp only [List.mem_append, List.mem_singleton] at hl
      rcases hl with hl | hl
      · exact Or.inl hl
      · exact Or.inr (Or.inl hl)
  · have hclosed : ∀ (hopen : fdrop_ops.open_bpf_map_file w.pin ⟨0, 0, 0, 0⟩
          = (none, ⟨0, 0, 0, 0⟩)),
        ∃ code w2, fdrop_ops.main H verbose fuel chk cfg w = some (code, w2) ∧ code ≠ 0 ∧
          w2.pin = w.pin ∧ w2.errno = w.errno ∧
          ∀ l ∈ w2.out, l ∈ w.out ∨ l = out_line.err_dev_missing ∨
            l = out_line.open_success ∨ l = out_line.err_not_compatible := by
      intro hopen
      refine ⟨EXIT_FAIL_BPF, w, ?_, by decide, rfl, rfl, fun l hl => Or.inl hl⟩
      unfold fdrop_ops.main
      simp only [hdev, if_false, hopen]
    rcases h with h | ⟨m, hm, hsig⟩
    · apply hclosed
      rw [h]; rfl
    · by_cases heq : m.info = fdrop_ops.expected_signature
      · have hchk : chk m.info fdrop_ops.map_expect ≠ 0 := by
          rcases hsig with h1 | h1 | h1 | h1 | h1
          · exact absurd heq (signature_mismatch m.info (Or.inl h1))
          · exact absurd heq (signature_mismatch m.info (Or.inr (Or.inl h1)))
          · exact absurd heq (signature_mismatch m.info (Or.inr (Or.inr (Or.inl h1))))
          · exact absurd heq (signature_mismatch m.info (Or.inr (Or.inr (Or.inr h1))))
          · exact h1
        have hchk2 : chk fdrop_ops.expected_signature fdrop_ops.map_expect ≠ 0 := heq ▸ hchk
        refine ⟨chk m.info fdrop_ops.map_expect,
          { w with out := w.out ++ [out_line.open_success] ++ [out_line.err_not_compatible] },
          ?_, hchk, rfl, rfl, ?_⟩
        · unfold fdrop_ops.main
          simp only [hdev, if_false, hm, fdrop_ops.open_bpf_map_file, heq, if_true, ne_eq,
            hchk2, not_false_eq_true]
        · intro l hl
          simp only [List.mem_append, List.mem_singleton] at hl
          rcases hl with (hl | hl) | hl
          · exact Or.inl hl
          · exact Or.inr (Or.inr (Or.inl hl))
          · exact Or.inr (Or.inr (Or.inr hl))
      · apply hclosed
        rw [hm]
        simp only [fdrop_ops.open_bpf_map_file, if_neg heq]

/-- Witness for C9: the registered map has the sizes and the capacity of the
block list but is of kind LRU hash; the requested add is not performed. -/
theorem ops_main_rejects_witness :
    ∃ code w2, fdrop_ops.main sample_host false 1 sample_check
        ⟨2, false, 0, ENUM_OPS_ADD, addr_10_0_0_5⟩
        ⟨some ⟨⟨BPF_MAP_TYPE_LRU_HASH, 4, 8, 4096⟩, [(7, 3)]⟩, 0, []⟩ = some (code, w2) ∧
      code ≠ 0 ∧ w2.pin = some ⟨⟨BPF_MAP_TYPE_LRU_HASH, 4, 8, 4096⟩, [(7, 3)]⟩ :=
  have h := ops_main_rejects sample_host false 1 sample_check
    ⟨2, false, 0, ENUM_OPS_ADD, addr_10_0_0_5⟩
    ⟨some ⟨⟨BPF_MAP_TYPE_LRU_HASH, 4, 8, 4096⟩, [(7, 3)]⟩, 0, []⟩
    (Or.inr ⟨_, rfl, Or.inr (Or.inr (Or.inr (Or.inl (by decide))))⟩)
  match h with
  | ⟨code, w2, h1, h2, h3, _⟩ => ⟨code, w2, h1, h2, h3⟩

/-- The table of the end-to-end scenario is opened and the add is performed. -/
theorem ops_main_adds :
    fdrop_ops.main sample_host false 1 sample_check ⟨2, false, 0, ENUM_OPS_ADD, addr_10_0_0_5⟩
      ⟨some empty_map, 0, []⟩ =
    some (0, ⟨some ⟨empty_map.info, [(addr_10_0_0_5, 0)]⟩, ENOENT,
      [out_line.open_success, out_line.add_new [10, 0, 0, 5],
        out_line.add_success [10, 0, 0, 5]]⟩) := by
  rfl

/-! ## The loader: reuse of a registered table -/

theorem loader_main_outcomes (env : fdrop_loader.loader_env) (cfg : config)
    (w : fdrop_loader.world) (id : Nat) (hpin : w.pin = some id) :
    (∃ code, code ≠ EXIT_OK ∧ fdrop_loader.main env cfg w = (code, w)) ∨
    (env.obj_get_ok = true ∧ env.reuse_err = 0 ∧
      ∃ code, fdrop_loader.main env cfg w =
        (code, { w with attached := (cfg.ifindex, id) :: w.attached })) ∨
    ((env.obj_get_ok = false ∨ env.reuse_err ≠ 0) ∧
      ∃ code, fdrop_loader.main env cfg w =
        (code, { w with maps := (env.new_map_id, fdrop_loader.fresh_map) :: w.maps,
                        attached := (cfg.ifindex, env.new_map_id) :: w.attached })) := by
  unfold fdrop_loader.main
  by_cases hdev : cfg.ifindex = -1
  · left
    exact ⟨EXIT_FAIL_OPTION, by decide, by simp only [hdev, if_true]⟩
  · simp only [hdev, if_false, hpin]
    unfold fdrop_loader.load_bpf_and_pin_maps
    by_cases hc : env.create_err = 0
    · cases ho : env.obj_ok with
      | false =>
        left
        exact ⟨EXIT_FAIL_BPF, by decide, by simp [hc, ho]⟩
      | true =>
        by_cases ha : env.attach_err = 0
        · cases hg : env.obj_get_ok with
          | false =>
            right; right
            refine ⟨Or.inl rfl, ?_⟩
            by_cases hf : env.prog_fd < 0
            · exact ⟨EXIT_FAIL_BPF, by
                simp [hc, ho, ha, hf, hg, hpin, fdrop_loader.bpf_obj_get,
                  fdrop_loader.bpf_map__reuse_fd, fdrop_loader.xdp_program__attach]⟩
            · exact ⟨EXIT_OK, by
                simp [hc, ho, ha, hf, hg, hpin, fdrop_loader.bpf_obj_get,
                  fdrop_loader.bpf_map__reuse_fd, fdrop_loader.xdp_program__attach]⟩
          | true =>
            by_cases hr : env.reuse_err = 0
            · right; left
              refine ⟨rfl, hr, ?_⟩
              by_cases hf : env.prog_fd < 0
              · exact ⟨EXIT_FAIL_BPF, by
                  simp [hc, ho, ha, hf, hg, hr, hpin, fdrop_loader.bpf_obj_get,
                    fdrop_loader.bpf_map__reuse_fd, fdrop_loader.xdp_program__attach]⟩
              · exact ⟨EXIT_OK, by
                  simp [hc, ho, ha, hf, hg, hr, hpin, fdrop_loader.bpf_obj_get,
                    fdrop_loader.bpf_map__reuse_fd, fdrop_loader.xdp_program__attach]⟩
            · right; right
              refine ⟨Or.inr hr, ?_⟩
              by_cases hf : env.prog_fd < 0
              · exact ⟨EXIT_FAIL_BPF, by
                  simp [hc, ho, ha, hf, hg, hr, hpin, fdrop_loader.bpf_obj_get,
                    fdrop_loader.bpf_map__reuse_fd, fdrop_loader.xdp_program__attach]⟩
              · exact ⟨EXIT_OK, by
                  simp [hc, ho, ha, hf, hg, hr, hpin, fdrop_loader.bpf_obj_get,
                    fdrop_loader.bpf_map__reuse_fd, fdrop_loader.xdp_program__attach]⟩
        · left
          refine ⟨env.attach_err, ha, ?_⟩
          cases hg : env.obj_get_ok <;> by_cases hr : env.reuse_err = 0 <;>
            simp [hc, ho, ha, hg, hr, hpin, fdrop_loader.bpf_obj_get,
              fdrop_loader.bpf_map__reuse_fd, fdrop_loader.xdp_program__attach]
    · left
      exact ⟨EXIT_FAIL_BPF, by decide, by simp [hc]⟩

/-- With a table registered before the run, on every exit path of `main` of
`fdrop_loader` the registration is in place afterwards and the registered table
has the rows it had (the kernel gives a created map an id that differs from the
registered one). -/
theorem loader_main_keeps_registration (env : fdrop_loader.loader_env) (cfg : config)
    (w : fdrop_loader.world) (id : Nat) (hpin : w.pin = some id)
    (hfresh : env.new_map_id ≠ id) :
    (fdrop_loader.main env cfg w).2.pin = some id ∧
    fdrop_loader.registered_table (fdrop_loader.main env cfg w).2
      = fdrop_loader.registered_table w := by
  rcases loader_main_outcomes env cfg w id hpin with
    ⟨code, _, h⟩ | ⟨_, _, code, h⟩ | ⟨_, code, h⟩
  · rw [h]; exact ⟨hpin, rfl⟩
  · rw [h]; exact ⟨hpin, by simp [fdrop_loader.registered_table]⟩
  · rw [h]
    refine ⟨hpin, ?_⟩
    simp only [fdrop_loader.registered_table, hpin, Option.some_bind]
    rw [List.find?_cons_of_neg]
    simpa using hfresh

/-- With a table registered before the run, when `bpf_obj_get` yields its
descriptor and `bpf_map__reuse_fd` succeeds, `main` of `fdrop_loader` creates no
map, attaches at most one classifier, bound to the registered table, and a run
that ends with `EXIT_OK` has attached it. -/
theorem loader_main_reuses_when_bound (env : fdrop_loader.loader_env) (cfg : config)
    (w : fdrop_loader.world) (id : Nat) (hpin : w.pin = some id)
    (hget : env.obj_get_ok = true) (hreuse : env.reuse_err = 0) :
    (fdrop_loader.main env cfg w).2.maps = w.maps ∧
    ((fdrop_loader.main env cfg w).2.attached = w.attached ∨
      (fdrop_loader.main env cfg w).2.attached = (cfg.ifindex, id) :: w.attached) ∧
    ((fdrop_loader.main env cfg w).1 = EXIT_OK →
      (fdrop_loader.main env cfg w).2.attached = (cfg.ifindex, id) :: w.attached) := by
  rcases loader_main_outcomes env cfg w id hpin with
    ⟨code, hcode, h⟩ | ⟨_, _, code, h⟩ | ⟨hbad, _⟩
  · rw [h]; exact ⟨rfl, Or.inl rfl, fun e => absurd e hcode⟩
  · rw [h]; exact ⟨rfl, Or.inr rfl, fun _ => rfl⟩
  · rcases hbad with hbad | hbad
    · rw [hget] at hbad; exact absurd hbad (by simp)
    · exact absurd hreuse hbad

/-- C10 fails on the code: `load_bpf_and_pin_maps` does not test the descriptor
from `bpf_obj_get` and drops the result of `bpf_map__reuse_fd`.  With the map 7
registered and holding a counter, when `bpf_obj_get` fails, or when it succeeds
and `bpf_map__reuse_fd` fails, `main` ends with `EXIT_OK`, a new map 8 has been
created, and the classifier on interface 2 is bound to map 8, not to the
registered map 7. -/
theorem loader_main_binds_fresh_table :
    fdrop_loader.registered_table sample_world
      = some ⟨empty_map.info, [(addr_10_0_0_5, 3)]⟩ ∧
    fdrop_loader.main ⟨0, true, false, 0, 0, 5, 0, 8⟩ sample_config sample_world =
      (EXIT_OK, ⟨[(8, fdrop_loader.fresh_map), (7, ⟨empty_map.info, [(addr_10_0_0_5, 3)]⟩)],
        some 7, [(2, 8)]⟩) ∧
    fdrop_loader.main ⟨0, true, true, -12, 0, 5, 0, 8⟩ sample_config sample_world =
      (EXIT_OK, ⟨[(8, fdrop_loader.fresh_map), (7, ⟨empty_map.info, [(addr_10_0_0_5, 3)]⟩)],
        some 7, [(2, 8)]⟩) ∧
    fdrop_loader.main ⟨0, true, true, 0, 0, 5, 0, 8⟩ sample_config sample_world =
      (EXIT_OK, ⟨[(7, ⟨empty_map.info, [(addr_10_0_0_5, 3)]⟩)], some 7, [(2, 7)]⟩) := by
  decide

end Fdrop
